import Mathlib

/-!
Verification development for the Teams Greeting Bot repository.

The development shallowly embeds the meeting-membership tracker
(`src/services/teams_service.py`, class `TeamsService`), the greeting
text/voice selector (`src/services/openai_service.py`, class
`OpenAIService`) and the bot-side participant filter
(`src/bot/teams_bot.py`, class `TeamsGreetingBot`).

Python dictionaries are modelled as association lists with string keys
(`lookupKey`, `upsert`, `eraseKey`); Python sets of participant ids are
modelled as duplicate-free lists (`setDiscard` models `set.discard`,
membership-guarded append models `set.add`).  Timestamps
(`datetime.utcnow()`) are modelled as `Nat` values passed in explicitly.
A Python exception raised inside a `try` block is modelled by returning
the state mutated so far together with an `Option String` error
component; a bare `except` handler discards that component.  The single
external side effect (the text-to-speech network call) is modelled by a
boolean failure oracle `ttsFails`.  A ghost field `dispatch_log` records
every invocation of `_generate_and_play_greeting` (the greeting
dispatcher); the Python code performs this call exactly where the model
appends to the log, and never reads the log.
-/

namespace TeamsGreetingBot

/-- Participant roles, from `models/schemas.py` (`ParticipantRole`). -/
inductive ParticipantRole where
  | organizer
  | presenter
  | attendee
  | producer
  | coorganizer
deriving DecidableEq, Repr

/-- A meeting participant, from `models/schemas.py` (`ParticipantInfo`).
`joined_at` (a timestamp) is modelled as a `Nat`. -/
structure ParticipantInfo where
  id : String
  display_name : String
  email : Option String := none
  role : ParticipantRole := ParticipantRole.attendee
  is_muted : Bool := false
  joined_at : Nat := 0
deriving DecidableEq, Repr

/-- Meeting information, from `models/schemas.py` (`MeetingInfo`). -/
structure MeetingInfo where
  meeting_id : String
  organizer_id : String
  subject : Option String := none
  participants : List ParticipantInfo := []
  started_at : Option Nat := none
deriving DecidableEq, Repr

/-- A greeting generation request, from `models/schemas.py`
(`GreetingRequest`). -/
structure GreetingRequest where
  participant_name : String
  language : String := "pt-BR"
  custom_message : Option String := none
deriving DecidableEq, Repr

/-- An audio generation response, from `models/schemas.py`
(`AudioResponse`).  The float duration is modelled as a `Nat`; no claim
depends on it. -/
structure AudioResponse where
  audio_url : String
  duration_seconds : Nat
  text_content : String
deriving DecidableEq, Repr

/-- Association-list lookup, modelling Python `dict` access
(`d[k]` / `d.get(k)` / `k in d`). -/
def lookupKey {α : Type} : List (String × α) → String → Option α
  | [], _ => none
  | (k', v) :: rest, k => if k' = k then some v else lookupKey rest k

/-- Association-list update, modelling Python `d[k] = v`. -/
def upsert {α : Type} : List (String × α) → String → α → List (String × α)
  | [], k, v => [(k, v)]
  | (k', v') :: rest, k, v =>
      if k' = k then (k, v) :: rest else (k', v') :: upsert rest k v

/-- Association-list removal, modelling Python `del d[k]`. -/
def eraseKey {α : Type} : List (String × α) → String → List (String × α)
  | [], _ => []
  | (k', v) :: rest, k =>
      if k' = k then eraseKey rest k else (k', v) :: eraseKey rest k

/-- Removal of an element from a set of ids, modelling Python
`set.discard` (tolerant of absence). -/
def setDiscard : List String → String → List String
  | [], _ => []
  | y :: rest, x => if y = x then setDiscard rest x else y :: setDiscard rest x

/-- The list comprehension in `handle_meeting_leave`
(`[p for p in meeting.participants if p.id != participant_id]`). -/
def filterOutId : List ParticipantInfo → String → List ParticipantInfo
  | [], _ => []
  | q :: rest, pid =>
      if q.id = pid then filterOutId rest pid else q :: filterOutId rest pid

/-- The in-memory state of `TeamsService` (`services/teams_service.py`,
`__init__`): the active-meetings map, the membership index
(`participant_cache`), the conversation references, plus the ghost
`dispatch_log` recording greeting-dispatcher invocations. -/
structure TeamsService where
  active_meetings : List (String × MeetingInfo) := []
  participant_cache : List (String × List String) := []
  conversation_references : List (String × String) := []
  dispatch_log : List (String × String) := []
deriving DecidableEq, Repr

/-- The value of `settings.default_greeting_language`
(`config/settings.py`, default `"pt-BR"`). -/
def default_greeting_language : String := "pt-BR"

/-- The canned greeting table of `OpenAIService.generate_greeting_text`
(`services/openai_service.py`, lines 32–37); each entry is an f-string
over the participant name.  The `es-ES` entry reproduces the source
file's literal bytes (a mojibake rendering of an accented i). -/
def greetings_table (name : String) : List (String × String) :=
  [ ("pt-BR", "Bom dia, " ++ name),
    ("en-US", "Good morning, " ++ name),
    ("es-ES", "Buenos dÃ­as, " ++ name),
    ("fr-FR", "Bonjour, " ++ name) ]

/-- The opening curly brace character (U+007B). -/
def braceOpen : Char := Char.ofNat 123

/-- The closing curly brace character (U+007D). -/
def braceClose : Char := Char.ofNat 125

/-- Resolution of one replacement field of `str.format(name=value)`,
given that only the keyword argument `name` is supplied (as in
`generate_greeting_text`).  The field `name` substitutes the value.
An empty or all-digit field name raises IndexError in Python (there
are no positional arguments); a field name containing a stray opening
brace raises ValueError; any other plain field name raises KeyError.
Fields using a conversion (`!`), a format specification (`:`), or
attribute/index access (`.`, `[`) are collapsed to a distinguished
error here even though Python can succeed on some of them (for
example `\x7bname!s\x7d`); no theorem in this file quantifies over that
class of templates.  The error payloads name the Python error kind;
the exact Python message texts are not reproduced. -/
def fieldResult (value : String) (field : List Char) : Except String String :=
  if field = "name".data then Except.ok value
  else if field.any (fun c => c = braceOpen) then
    Except.error "ValueError: unexpected \x7b in field name"
  else if field.all Char.isDigit then
    Except.error "IndexError: replacement index out of range"
  else if field.any (fun c => c = '!' || c = ':' || c = '.' || c = '[') then
    Except.error
      "model limitation: conversions, format specs and access paths"
  else
    Except.error ("KeyError: " ++ String.mk field)

/-- Scanner state for the `str.format` model: between fields, directly
after an opening or closing brace, or inside a replacement field with
the field name accumulated so far. -/
inductive FmtState where
  | normal
  | afterOpen
  | afterClose
  | inField (field : List Char)

/-- One-character-per-step scanner for Python
`template.format(name=value)`: `\x7b\x7b` and `\x7d\x7d` are literal-brace
escapes, `\x7b...\x7d` delimits a replacement field resolved by
`fieldResult`, and an unmatched brace raises ValueError, as in
Python. -/
def fmtAux (value : String) : FmtState → List Char → Except String String
  | FmtState.normal, [] => Except.ok ""
  | FmtState.afterOpen, [] =>
      Except.error "ValueError: single \x7b encountered in format string"
  | FmtState.afterClose, [] =>
      Except.error "ValueError: single \x7d encountered in format string"
  | FmtState.inField _, [] =>
      Except.error "ValueError: single \x7b encountered in format string"
  | FmtState.normal, c :: rest =>
      if c = braceOpen then fmtAux value FmtState.afterOpen rest
      else if c = braceClose then fmtAux value FmtState.afterClose rest
      else (fmtAux value FmtState.normal rest).map
        (fun s => String.mk [c] ++ s)
  | FmtState.afterOpen, c :: rest =>
      if c = braceOpen then
        (fmtAux value FmtState.normal rest).map (fun s => "\x7b" ++ s)
      else if c = braceClose then
        match fieldResult value [] with
        | Except.ok sub =>
            (fmtAux value FmtState.normal rest).map (fun s => sub ++ s)
        | Except.error e => Except.error e
      else fmtAux value (FmtState.inField [c]) rest
  | FmtState.afterClose, c :: rest =>
      if c = braceClose then
        (fmtAux value FmtState.normal rest).map (fun s => "\x7d" ++ s)
      else
        Except.error "ValueError: single \x7d encountered in format string"
  | FmtState.inField field, c :: rest =>
      if c = braceClose then
        match fieldResult value field with
        | Except.ok sub =>
            (fmtAux value FmtState.normal rest).map (fun s => sub ++ s)
        | Except.error e => Except.error e
      else fmtAux value (FmtState.inField (field ++ [c])) rest

/-- Python `template.format(name=value)` with the single keyword
argument `name`, as called in `generate_greeting_text`; partial, since
`str.format` raises on templates it cannot interpolate. -/
def pythonFormatName (template value : String) : Except String String :=
  fmtAux value FmtState.normal template.data

/-- `OpenAIService.generate_greeting_text`: a custom template is
interpolated with the participant name via
`custom_message.format(name=participant_name)`, which can raise
(KeyError / IndexError / ValueError) on templates with other or
malformed replacement fields; otherwise the canned table is consulted
with `dict.get`, whose default is the `pt-BR` phrase. -/
def generate_greeting_text (r : GreetingRequest) : Except String String :=
  match r.custom_message with
  | some msg => pythonFormatName msg r.participant_name
  | none =>
      Except.ok
        ((lookupKey (greetings_table r.participant_name) r.language).getD
          ("Bom dia, " ++ r.participant_name))

/-- A template fragment for stating what `str.format(name=...)` is
guaranteed to do: a literal character, a literal-brace escape, or the
`\x7bname\x7d` replacement field. -/
inductive TemplatePiece where
  | lit (c : Char)
  | escOpen
  | escClose
  | nameField
deriving DecidableEq, Repr

/-- A literal piece must not itself be a brace (braces in templates
belong to escapes or fields). -/
def pieceOk : TemplatePiece → Bool
  | TemplatePiece.lit c => !(c = braceOpen || c = braceClose)
  | _ => true

/-- All pieces of a template are well formed. -/
def piecesOk (ps : List TemplatePiece) : Bool :=
  ps.all pieceOk

/-- The template text denoted by a list of pieces. -/
def piecesSource : List TemplatePiece → List Char
  | [] => []
  | TemplatePiece.lit c :: rest => c :: piecesSource rest
  | TemplatePiece.escOpen :: rest =>
      braceOpen :: braceOpen :: piecesSource rest
  | TemplatePiece.escClose :: rest =>
      braceClose :: braceClose :: piecesSource rest
  | TemplatePiece.nameField :: rest =>
      braceOpen :: 'n' :: 'a' :: 'm' :: 'e' :: braceClose ::
        piecesSource rest

/-- What Python renders for such a template: literal characters kept,
escapes rendered as single braces, each name field replaced by the
value. -/
def renderPieces (value : String) : List TemplatePiece → String
  | [] => ""
  | TemplatePiece.lit c :: rest => String.mk [c] ++ renderPieces value rest
  | TemplatePiece.escOpen :: rest => "\x7b" ++ renderPieces value rest
  | TemplatePiece.escClose :: rest => "\x7d" ++ renderPieces value rest
  | TemplatePiece.nameField :: rest => value ++ renderPieces value rest

/-- The `voice_mapping` dictionary of
`OpenAIService.generate_greeting_audio` (lines 88–93). -/
def voice_mapping : List (String × String) :=
  [ ("pt-BR", "alloy"),
    ("en-US", "echo"),
    ("es-ES", "fable"),
    ("fr-FR", "onyx") ]

/-- Voice selection in `OpenAIService.generate_greeting_audio`
(`voice_mapping.get(language, "alloy")`). -/
def select_voice (language : String) : String :=
  (lookupKey voice_mapping language).getD "alloy"

/-- `OpenAIService.generate_speech_audio`: the external TTS call, which
may fail (modelled by the `ttsFails` oracle); on failure the function
logs and re-raises.  The audio url contains a fresh uuid in the source;
it is modelled by a fixed path, and the word-count duration estimate is
modelled in `Nat`.  No claim depends on either value. -/
def generate_speech_audio (ttsFails : Bool) (text voice : String) :
    Except String AudioResponse :=
  match ttsFails, voice with
  | true, _ => Except.error "Failed to generate speech audio"
  | false, _ =>
      Except.ok
        { audio_url := "file:///tmp/teams_bot_audio/audio.mp3",
          duration_seconds := max 1 ((text.splitOn " ").length * 60 / 150),
          text_content := text }

/-- `OpenAIService.generate_greeting_audio`: select text and voice, then
synthesize.  Its `try` block re-raises on failure, so the error passes
through. -/
def generate_greeting_audio (ttsFails : Bool) (r : GreetingRequest) :
    Except String AudioResponse := do
  let text ← generate_greeting_text r
  generate_speech_audio ttsFails text (select_voice r.language)

/-- `TeamsService._play_audio_in_meeting`: a placeholder that, when a
conversation reference is stored for the meeting, constructs (but does
not send) a text message from the audio's text content.  It never
raises and never mutates state; the constructed message is returned for
faithfulness and discarded by the caller. -/
def play_audio_in_meeting (s : TeamsService) (meeting_id : String)
    (audio : AudioResponse) : Option String :=
  (lookupKey s.conversation_references meeting_id).map
    (fun _ => "ðŸŽµ " ++ audio.text_content)

/-- Body of `TeamsService._generate_and_play_greeting` before its
`except` clause: build the greeting request (configured default
language, no custom template), synthesize, then play. -/
def generate_and_play_greeting_body (ttsFails : Bool) (s : TeamsService)
    (meeting_id : String) (p : ParticipantInfo) : Except String Unit := do
  let req : GreetingRequest :=
    { participant_name := p.display_name,
      language := default_greeting_language }
  let audio ← generate_greeting_audio ttsFails req
  let _msg := play_audio_in_meeting s meeting_id audio
  pure ()

/-- `TeamsService._generate_and_play_greeting`: the body wrapped in the
`try`/`except` that logs and swallows any failure. -/
def generate_and_play_greeting (ttsFails : Bool) (s : TeamsService)
    (meeting_id : String) (p : ParticipantInfo) : Except String Unit :=
  match generate_and_play_greeting_body ttsFails s meeting_id p with
  | Except.ok u => Except.ok u
  | Except.error _ => Except.ok ()

/-- Body of `TeamsService.handle_meeting_join` under its `try`: lazily
create the meeting (fresh `started_at`, organizer `"unknown"`) and an
empty index entry, then perform the duplicate-join check against the
membership index; on a genuine new participant, add the id to the
index, append the participant, and invoke the greeting dispatcher
(recorded in `dispatch_log`).  The result pairs the state mutated so
far with the exception, if any, escaping the body: accessing
`self.participant_cache[meeting_id]` raises `KeyError` when the meeting
exists but its index entry is missing (impossible in reachable states),
and `_generate_and_play_greeting` catches its own errors. -/
def handle_meeting_join_body (ttsFails : Bool) (now : Nat)
    (meeting_id : String) (participant : ParticipantInfo)
    (s : TeamsService) : TeamsService × Option String :=
  let s1 :=
    match lookupKey s.active_meetings meeting_id with
    | none =>
        { s with
          active_meetings := upsert s.active_meetings meeting_id
            { meeting_id := meeting_id, organizer_id := "unknown",
              started_at := some now },
          participant_cache := upsert s.participant_cache meeting_id [] }
    | some _ => s
  match lookupKey s1.active_meetings meeting_id,
        lookupKey s1.participant_cache meeting_id with
  | some meeting, some cache =>
      if participant.id ∈ cache then
        (s1, none)
      else
        let s2 :=
          { s1 with
            participant_cache := upsert s1.participant_cache meeting_id
              (cache ++ [participant.id]),
            active_meetings := upsert s1.active_meetings meeting_id
              { meeting with
                participants := meeting.participants ++ [participant] },
            dispatch_log := s1.dispatch_log ++ [(meeting_id, participant.id)] }
        match generate_and_play_greeting ttsFails s2 meeting_id participant with
        | Except.ok _ => (s2, none)
        | Except.error e => (s2, some e)
  | some _, none => (s1, some "KeyError: participant_cache")
  | none, _ => (s1, some "KeyError: active_meetings")

/-- `TeamsService.handle_meeting_join` as called: the surrounding
`except Exception` logs and swallows whatever the body raised, keeping
the mutations applied so far. -/
def handle_meeting_join_call (ttsFails : Bool) (now : Nat)
    (meeting_id : String) (participant : ParticipantInfo)
    (s : TeamsService) : TeamsService × Option String :=
  ((handle_meeting_join_body ttsFails now meeting_id participant s).1, none)

/-- The state after `TeamsService.handle_meeting_join`. -/
def handle_meeting_join (ttsFails : Bool) (now : Nat) (meeting_id : String)
    (participant : ParticipantInfo) (s : TeamsService) : TeamsService :=
  (handle_meeting_join_call ttsFails now meeting_id participant s).1

/-- `TeamsService._cleanup_meeting`: remove the meeting from the
meetings map, the membership index, and the conversation references. -/
def cleanup_meeting (meeting_id : String) (s : TeamsService) : TeamsService :=
  { s with
    active_meetings := eraseKey s.active_meetings meeting_id,
    participant_cache := eraseKey s.participant_cache meeting_id,
    conversation_references := eraseKey s.conversation_references meeting_id }

/-- `TeamsService.handle_meeting_leave`: no-op for an unknown meeting;
otherwise discard the id from the index (when the index entry exists),
filter the participant list, and clean the meeting up when the filtered
list is empty.  The body cannot raise. -/
def handle_meeting_leave (meeting_id participant_id : String)
    (s : TeamsService) : TeamsService :=
  match lookupKey s.active_meetings meeting_id with
  | none => s
  | some meeting =>
      let s1 :=
        match lookupKey s.participant_cache meeting_id with
        | some cache =>
            { s with
              participant_cache := upsert s.participant_cache meeting_id
                (setDiscard cache participant_id) }
        | none => s
      let newParts := filterOutId meeting.participants participant_id
      let s2 :=
        { s1 with
          active_meetings := upsert s1.active_meetings meeting_id
            { meeting with participants := newParts } }
      if newParts = [] then cleanup_meeting meeting_id s2 else s2

/-- `TeamsService.get_meeting_info`: read-only lookup
(`active_meetings.get(meeting_id)`). -/
def get_meeting_info (s : TeamsService) (meeting_id : String) :
    Option MeetingInfo :=
  lookupKey s.active_meetings meeting_id

/-- `TeamsService.get_active_meetings`: read-only snapshot. -/
def get_active_meetings (s : TeamsService) : List MeetingInfo :=
  s.active_meetings.map (fun kv => kv.2)

/-- `TeamsService.add_conversation_reference`: upsert of a conversation
reference, independent of the join/leave lifecycle. -/
def add_conversation_reference (meeting_id ref : String)
    (s : TeamsService) : TeamsService :=
  { s with
    conversation_references :=
      upsert s.conversation_references meeting_id ref }

/-- Decidable check that `needle` is a leading segment of `hay`. -/
def isPrefixChars : List Char → List Char → Bool
  | [], _ => true
  | _ :: _, [] => false
  | c :: cs, d :: ds => c = d && isPrefixChars cs ds

/-- Decidable substring containment on character lists. -/
def containsSub (needle : List Char) : List Char → Bool
  | [] => isPrefixChars needle []
  | c :: rest => isPrefixChars needle (c :: rest) || containsSub needle rest

/-- Python's `needle in hay` substring test on strings. -/
def strContains (hay needle : String) : Bool :=
  containsSub needle.data hay.data

/-- Python's `str.lower()`, modelled character-wise over the string's
data so that it evaluates by kernel reduction. -/
def strToLower (s : String) : String :=
  String.mk (s.data.map Char.toLower)

/-- The `bot_identifiers` list of `TeamsGreetingBot._is_bot_participant`
(`bot/teams_bot.py`, lines 191–196). -/
def bot_identifiers : List String :=
  ["teamsgreetingbot", "greeting bot", "bot", "@bot"]

/-- `TeamsGreetingBot._is_bot_participant`: substring-match the
lowercased display name against the identifier list. -/
def is_bot_participant (p : ParticipantInfo) : Bool :=
  bot_identifiers.any
    (fun ident => strContains (strToLower p.display_name) ident)

/-- The per-participant body of
`TeamsGreetingBot.on_teams_meeting_participants_join` (lines 123–132):
skip the participant when `_is_bot_participant` holds, otherwise hand
the join to the tracker. -/
def process_participant_join (ttsFails : Bool) (now : Nat)
    (meeting_id : String) (s : TeamsService) (p : ParticipantInfo) :
    TeamsService :=
  if is_bot_participant p then s
  else handle_meeting_join ttsFails now meeting_id p s

/-- The loop of `TeamsGreetingBot.on_teams_meeting_participants_join`
over the joined participants. -/
def on_teams_meeting_participants_join (ttsFails : Bool) (now : Nat)
    (meeting_id : String) (ps : List ParticipantInfo) (s : TeamsService) :
    TeamsService :=
  ps.foldl (process_participant_join ttsFails now meeting_id) s

/-- The tracker operations a caller can perform on the shared
`TeamsService` instance. -/
inductive Op where
  | join (ttsFails : Bool) (now : Nat) (meeting_id : String)
      (p : ParticipantInfo)
  | leave (meeting_id participant_id : String)
  | cleanup (meeting_id : String)
  | setRef (meeting_id ref : String)

/-- Application of one tracker operation. -/
def applyOp (s : TeamsService) : Op → TeamsService
  | Op.join f now mid p => handle_meeting_join f now mid p s
  | Op.leave mid pid => handle_meeting_leave mid pid s
  | Op.cleanup mid => cleanup_meeting mid s
  | Op.setRef mid r => add_conversation_reference mid r s

/-- The initial state of `TeamsService.__init__`: three empty maps. -/
def initialState : TeamsService := {}

/-- The state after a sequence of tracker operations from the initial
state. -/
def run (ops : List Op) : TeamsService :=
  ops.foldl applyOp initialState

/-- A state reachable from the initial empty state by tracker
operations. -/
def Reachable (s : TeamsService) : Prop :=
  ∃ ops, run ops = s

/-- The meeting's index entry as a list of ids (empty when absent). -/
def cacheIds (s : TeamsService) (meeting_id : String) : List String :=
  (lookupKey s.participant_cache meeting_id).getD []

/-- The meeting's participant list (empty when the meeting is absent). -/
def participantsOf (s : TeamsService) (meeting_id : String) :
    List ParticipantInfo :=
  match lookupKey s.active_meetings meeting_id with
  | some m => m.participants
  | none => []

/-- The core consistency invariant (spec §3, "Membership Index"): every
active meeting has an index entry holding exactly the ids of its
participant list, and that list has no duplicate ids. -/
def Inv (s : TeamsService) : Prop :=
  ∀ mid m, lookupKey s.active_meetings mid = some m →
    ∃ ids, lookupKey s.participant_cache mid = some ids ∧
      (∀ x, x ∈ ids ↔ x ∈ m.participants.map (fun q => q.id)) ∧
      ids.Nodup ∧ (m.participants.map (fun q => q.id)).Nodup

/-- Strengthened invariant used for the induction: consistency, plus
every active meeting has a nonempty participant list, plus index
entries exist only for active meetings. -/
def StrongInv (s : TeamsService) : Prop :=
  Inv s ∧
  (∀ mid m, lookupKey s.active_meetings mid = some m →
    m.participants ≠ []) ∧
  (∀ mid, lookupKey s.active_meetings mid = none →
    lookupKey s.participant_cache mid = none)

/-! Association-list and set-model lemmas. -/

@[simp]
theorem lookupKey_upsert_self {α : Type} (m : List (String × α))
    (k : String) (v : α) : lookupKey (upsert m k v) k = some v := by
  induction m with
  | nil => simp [upsert, lookupKey]
  | cons kv rest ih =>
      obtain ⟨k', v'⟩ := kv
      by_cases h : k' = k
      · simp [upsert, lookupKey, h]
      · simp [upsert, lookupKey, h, ih]

theorem lookupKey_upsert_ne {α : Type} (m : List (String × α))
    (k k' : String) (v : α) (h : k' ≠ k) :
    lookupKey (upsert m k v) k' = lookupKey m k' := by
  induction m with
  | nil => simp [upsert, lookupKey, Ne.symm h]
  | cons kv rest ih =>
      obtain ⟨k₀, v₀⟩ := kv
      by_cases h₀ : k₀ = k
      · subst h₀
        simp [upsert, lookupKey, Ne.symm h]
      · simp only [upsert, if_neg h₀, lookupKey]
        by_cases h₁ : k₀ = k'
        · simp [h₁]
        · simp [h₁, ih]

@[simp]
theorem upsert_upsert {α : Type} (m : List (String × α)) (k : String)
    (v w : α) : upsert (upsert m k v) k w = upsert m k w := by
  induction m with
  | nil => simp [upsert]
  | cons kv rest ih =>
      obtain ⟨k₀, v₀⟩ := kv
      by_cases h : k₀ = k
      · simp [upsert, h]
      · simp [upsert, h, ih]

theorem upsert_eq_self {α : Type} (m : List (String × α)) (k : String)
    (v : α) (h : lookupKey m k = some v) : upsert m k v = m := by
  induction m with
  | nil => simp [lookupKey] at h
  | cons kv rest ih =>
      obtain ⟨k₀, v₀⟩ := kv
      by_cases h₀ : k₀ = k
      · subst h₀
        simp [lookupKey] at h
        simp [upsert, h]
      · simp only [lookupKey, if_neg h₀] at h
        simp [upsert, h₀, ih h]

@[simp]
theorem lookupKey_eraseKey_self {α : Type} (m : List (String × α))
    (k : String) : lookupKey (eraseKey m k) k = none := by
  induction m with
  | nil => simp [eraseKey, lookupKey]
  | cons kv rest ih =>
      obtain ⟨k₀, v₀⟩ := kv
      by_cases h : k₀ = k
      · simp [eraseKey, h, ih]
      · simp [eraseKey, lookupKey, h, ih]

theorem lookupKey_eraseKey_ne {α : Type} (m : List (String × α))
    (k k' : String) (h : k' ≠ k) :
    lookupKey (eraseKey m k) k' = lookupKey m k' := by
  induction m with
  | nil => simp [eraseKey]
  | cons kv rest ih =>
      obtain ⟨k₀, v₀⟩ := kv
      by_cases h₀ : k₀ = k
      · subst h₀
        simp [eraseKey, lookupKey, Ne.symm h, ih]
      · simp only [eraseKey, if_neg h₀, lookupKey]
        by_cases h₁ : k₀ = k'
        · simp [h₁]
        · simp [h₁, ih]

@[simp]
theorem mem_setDiscard (l : List String) (x y : String) :
    x ∈ setDiscard l y ↔ x ∈ l ∧ x ≠ y := by
  induction l with
  | nil => simp [setDiscard]
  | cons z rest ih =>
      by_cases h : z = y
      · subst h
        simp [setDiscard, ih, List.mem_cons]
        tauto
      · simp [setDiscard, h, ih, List.mem_cons]
        constructor
        · rintro (rfl | ⟨hx, hne⟩)
          · exact ⟨Or.inl rfl, h⟩
          · exact ⟨Or.inr hx, hne⟩
        · rintro ⟨rfl | hx, hne⟩
          · exact Or.inl rfl
          · exact Or.inr ⟨hx, hne⟩

theorem setDiscard_nodup (l : List String) (y : String) (h : l.Nodup) :
    (setDiscard l y).Nodup := by
  induction l with
  | nil => simp [setDiscard]
  | cons z rest ih =>
      rw [List.nodup_cons] at h
      by_cases hz : z = y
      · simp only [setDiscard, if_pos hz]
        exact ih h.2
      · simp only [setDiscard, if_neg hz, List.nodup_cons, mem_setDiscard]
        exact ⟨fun hc => h.1 hc.1, ih h.2⟩

theorem setDiscard_eq_self (l : List String) (y : String) (h : y ∉ l) :
    setDiscard l y = l := by
  induction l with
  | nil => simp [setDiscard]
  | cons z rest ih =>
      simp only [List.mem_cons, not_or] at h
      simp [setDiscard, Ne.symm h.1, ih h.2]

theorem map_id_filterOutId (l : List ParticipantInfo) (pid : String) :
    (filterOutId l pid).map (fun q => q.id) =
      setDiscard (l.map (fun q => q.id)) pid := by
  induction l with
  | nil => simp [filterOutId, setDiscard]
  | cons q rest ih =>
      by_cases h : q.id = pid
      · simp [filterOutId, setDiscard, h, ih]
      · simp [filterOutId, setDiscard, h, ih]

theorem filterOutId_eq_self (l : List ParticipantInfo) (pid : String)
    (h : pid ∉ l.map (fun q => q.id)) : filterOutId l pid = l := by
  induction l with
  | nil => simp [filterOutId]
  | cons q rest ih =>
      simp only [List.map_cons, List.mem_cons, not_or] at h
      simp [filterOutId, Ne.symm h.1, ih h.2]

/-! Equation lemmas describing each path through the tracker
operations. -/

theorem greeting_ok (ttsFails : Bool) (s : TeamsService)
    (meeting_id : String) (p : ParticipantInfo) :
    generate_and_play_greeting ttsFails s meeting_id p = Except.ok () := by
  cases ttsFails <;> rfl

theorem join_fresh (ttsFails : Bool) (now : Nat) (meeting_id : String)
    (p : ParticipantInfo) (s : TeamsService)
    (hm : lookupKey s.active_meetings meeting_id = none) :
    handle_meeting_join ttsFails now meeting_id p s =
      { s with
        active_meetings := upsert s.active_meetings meeting_id
          { meeting_id := meeting_id, organizer_id := "unknown",
            participants := [p], started_at := some now },
        participant_cache := upsert s.participant_cache meeting_id [p.id],
        dispatch_log := s.dispatch_log ++ [(meeting_id, p.id)] } := by
  simp [handle_meeting_join, handle_meeting_join_call,
    handle_meeting_join_body, hm, greeting_ok]

theorem join_new (ttsFails : Bool) (now : Nat) (meeting_id : String)
    (p : ParticipantInfo) (s : TeamsService) (m : MeetingInfo)
    (ids : List String)
    (hm : lookupKey s.active_meetings meeting_id = some m)
    (hc : lookupKey s.participant_cache meeting_id = some ids)
    (hnew : p.id ∉ ids) :
    handle_meeting_join ttsFails now meeting_id p s =
      { s with
        active_meetings := upsert s.active_meetings meeting_id
          { m with participants := m.participants ++ [p] },
        participant_cache := upsert s.participant_cache meeting_id
          (ids ++ [p.id]),
        dispatch_log := s.dispatch_log ++ [(meeting_id, p.id)] } := by
  simp [handle_meeting_join, handle_meeting_join_call,
    handle_meeting_join_body, hm, hc, hnew, greeting_ok]

theorem join_noop (ttsFails : Bool) (now : Nat) (meeting_id : String)
    (p : ParticipantInfo) (s : TeamsService) (m : MeetingInfo)
    (ids : List String)
    (hm : lookupKey s.active_meetings meeting_id = some m)
    (hc : lookupKey s.participant_cache meeting_id = some ids)
    (hdup : p.id ∈ ids) :
    handle_meeting_join ttsFails now meeting_id p s = s := by
  simp [handle_meeting_join, handle_meeting_join_call,
    handle_meeting_join_body, hm, hc, hdup]

theorem join_stale (ttsFails : Bool) (now : Nat) (meeting_id : String)
    (p : ParticipantInfo) (s : TeamsService) (m : MeetingInfo)
    (hm : lookupKey s.active_meetings meeting_id = some m)
    (hc : lookupKey s.participant_cache meeting_id = none) :
    handle_meeting_join ttsFails now meeting_id p s = s := by
  simp [handle_meeting_join, handle_meeting_join_call,
    handle_meeting_join_body, hm, hc]

theorem join_meeting_present (ttsFails : Bool) (now : Nat)
    (meeting_id : String) (p : ParticipantInfo) (s : TeamsService) :
    ∃ m, lookupKey
      (handle_meeting_join ttsFails now meeting_id p s).active_meetings
      meeting_id = some m := by
  rcases hm : lookupKey s.active_meetings meeting_id with _ | m
  · rw [join_fresh ttsFails now meeting_id p s hm]
    exact ⟨_, lookupKey_upsert_self _ _ _⟩
  · rcases hc : lookupKey s.participant_cache meeting_id with _ | ids
    · rw [join_stale ttsFails now meeting_id p s m hm hc]
      exact ⟨m, hm⟩
    · by_cases hdup : p.id ∈ ids
      · rw [join_noop ttsFails now meeting_id p s m ids hm hc hdup]
        exact ⟨m, hm⟩
      · rw [join_new ttsFails now meeting_id p s m ids hm hc hdup]
        exact ⟨_, lookupKey_upsert_self _ _ _⟩

theorem leave_unknown (meeting_id participant_id : String)
    (s : TeamsService)
    (hm : lookupKey s.active_meetings meeting_id = none) :
    handle_meeting_leave meeting_id participant_id s = s := by
  simp [handle_meeting_leave, hm]

theorem leave_known_cache (meeting_id participant_id : String)
    (s : TeamsService) (m : MeetingInfo) (ids : List String)
    (hm : lookupKey s.active_meetings meeting_id = some m)
    (hc : lookupKey s.participant_cache meeting_id = some ids) :
    handle_meeting_leave meeting_id participant_id s =
      (if filterOutId m.participants participant_id = [] then
        cleanup_meeting meeting_id
          { s with
            participant_cache := upsert s.participant_cache meeting_id
              (setDiscard ids participant_id),
            active_meetings := upsert s.active_meetings meeting_id
              { m with
                participants := filterOutId m.participants participant_id } }
      else
        { s with
          participant_cache := upsert s.participant_cache meeting_id
            (setDiscard ids participant_id),
          active_meetings := upsert s.active_meetings meeting_id
            { m with
              participants := filterOutId m.participants participant_id } }) := by
  simp [handle_meeting_leave, hm, hc]

theorem leave_known_nocache (meeting_id participant_id : String)
    (s : TeamsService) (m : MeetingInfo)
    (hm : lookupKey s.active_meetings meeting_id = some m)
    (hc : lookupKey s.participant_cache meeting_id = none) :
    handle_meeting_leave meeting_id participant_id s =
      (if filterOutId m.participants participant_id = [] then
        cleanup_meeting meeting_id
          { s with
            active_meetings := upsert s.active_meetings meeting_id
              { m with
                participants := filterOutId m.participants participant_id } }
      else
        { s with
          active_meetings := upsert s.active_meetings meeting_id
            { m with
              participants := filterOutId m.participants participant_id } }) := by
  simp [handle_meeting_leave, hm, hc]

/-! Preservation of the strengthened invariant by every tracker
operation. -/

theorem strongInv_initial : StrongInv initialState := by
  refine ⟨?_, ?_, ?_⟩
  · intro mid m hm
    simp [initialState, lookupKey] at hm
  · intro mid m hm
    simp [initialState, lookupKey] at hm
  · intro mid _
    simp [initialState, lookupKey]

theorem strongInv_join (ttsFails : Bool) (now : Nat) (mid : String)
    (p : ParticipantInfo) (s : TeamsService) (h : StrongInv s) :
    StrongInv (handle_meeting_join ttsFails now mid p s) := by
  obtain ⟨hInv, hNE, hDom⟩ := h
  rcases hm : lookupKey s.active_meetings mid with _ | m
  · rw [join_fresh ttsFails now mid p s hm]
    refine ⟨?_, ?_, ?_⟩
    · intro mid' m' hm'
      by_cases heq : mid' = mid
      · subst heq
        rw [lookupKey_upsert_self] at hm'
        cases hm'
        refine ⟨[p.id], lookupKey_upsert_self _ _ _, ?_, ?_, ?_⟩
        · intro x
          simp
        · exact List.nodup_singleton _
        · simp
      · rw [lookupKey_upsert_ne _ _ _ _ heq] at hm'
        obtain ⟨ids, hci, hiff, hnd1, hnd2⟩ := hInv mid' m' hm'
        refine ⟨ids, ?_, hiff, hnd1, hnd2⟩
        rw [lookupKey_upsert_ne _ _ _ _ heq]
        exact hci
    · intro mid' m' hm'
      by_cases heq : mid' = mid
      · subst heq
        rw [lookupKey_upsert_self] at hm'
        cases hm'
        simp
      · rw [lookupKey_upsert_ne _ _ _ _ heq] at hm'
        exact hNE mid' m' hm'
    · intro mid' hm'
      by_cases heq : mid' = mid
      · subst heq
        rw [lookupKey_upsert_self] at hm'
        cases hm'
      · rw [lookupKey_upsert_ne _ _ _ _ heq] at hm'
        rw [lookupKey_upsert_ne _ _ _ _ heq]
        exact hDom mid' hm'
  · obtain ⟨ids, hc, hiff, hnd1, hnd2⟩ := hInv mid m hm
    by_cases hdup : p.id ∈ ids
    · rw [join_noop ttsFails now mid p s m ids hm hc hdup]
      exact ⟨hInv, hNE, hDom⟩
    · have hpid : p.id ∉ m.participants.map (fun q => q.id) :=
        fun hmem => hdup ((hiff p.id).mpr hmem)
      rw [join_new ttsFails now mid p s m ids hm hc hdup]
      refine ⟨?_, ?_, ?_⟩
      · intro mid' m' hm'
        by_cases heq : mid' = mid
        · subst heq
          rw [lookupKey_upsert_self] at hm'
          cases hm'
          refine ⟨ids ++ [p.id], lookupKey_upsert_self _ _ _, ?_, ?_, ?_⟩
          · intro x
            simp only [List.mem_append, List.mem_singleton, List.map_append,
              List.map_cons, List.map_nil, hiff x]
          · simp [List.nodup_append, hnd1, hdup, List.disjoint_left]
          · simp [List.nodup_append, hnd2, hpid, List.disjoint_left]
        · rw [lookupKey_upsert_ne _ _ _ _ heq] at hm'
          obtain ⟨ids', hci, hiff', hnd1', hnd2'⟩ := hInv mid' m' hm'
          refine ⟨ids', ?_, hiff', hnd1', hnd2'⟩
          rw [lookupKey_upsert_ne _ _ _ _ heq]
          exact hci
      · intro mid' m' hm'
        by_cases heq : mid' = mid
        · subst heq
          rw [lookupKey_upsert_self] at hm'
          cases hm'
          simp
        · rw [lookupKey_upsert_ne _ _ _ _ heq] at hm'
          exact hNE mid' m' hm'
      · intro mid' hm'
        by_cases heq : mid' = mid
        · subst heq
          rw [lookupKey_upsert_self] at hm'
          cases hm'
        · rw [lookupKey_upsert_ne _ _ _ _ heq] at hm'
          rw [lookupKey_upsert_ne _ _ _ _ heq]
          exact hDom mid' hm'

theorem strongInv_cleanup (mid : String) (s : TeamsService)
    (h : StrongInv s) : StrongInv (cleanup_meeting mid s) := by
  obtain ⟨hInv, hNE, hDom⟩ := h
  refine ⟨?_, ?_, ?_⟩
  · intro mid' m' hm'
    by_cases heq : mid' = mid
    · subst heq
      simp only [cleanup_meeting, lookupKey_eraseKey_self] at hm'
      exact Option.noConfusion hm'
    · simp only [cleanup_meeting] at hm'
      rw [lookupKey_eraseKey_ne _ _ _ heq] at hm'
      obtain ⟨ids, hci, hiff, hnd1, hnd2⟩ := hInv mid' m' hm'
      refine ⟨ids, ?_, hiff, hnd1, hnd2⟩
      simp only [cleanup_meeting]
      rw [lookupKey_eraseKey_ne _ _ _ heq]
      exact hci
  · intro mid' m' hm'
    by_cases heq : mid' = mid
    · subst heq
      simp only [cleanup_meeting, lookupKey_eraseKey_self] at hm'
      exact Option.noConfusion hm'
    · simp only [cleanup_meeting] at hm'
      rw [lookupKey_eraseKey_ne _ _ _ heq] at hm'
      exact hNE mid' m' hm'
  · intro mid' hm'
    by_cases heq : mid' = mid
    · subst heq
      simp only [cleanup_meeting]
      exact lookupKey_eraseKey_self _ _
    · simp only [cleanup_meeting] at hm' ⊢
      rw [lookupKey_eraseKey_ne _ _ _ heq] at hm'
      rw [lookupKey_eraseKey_ne _ _ _ heq]
      exact hDom mid' hm'

theorem strongInv_leave (mid pid : String) (s : TeamsService)
    (h : StrongInv s) : StrongInv (handle_meeting_leave mid pid s) := by
  obtain ⟨hInv, hNE, hDom⟩ := h
  rcases hm : lookupKey s.active_meetings mid with _ | m
  · rw [leave_unknown mid pid s hm]
    exact ⟨hInv, hNE, hDom⟩
  · obtain ⟨ids, hc, hiff, hnd1, hnd2⟩ := hInv mid m hm
    rw [leave_known_cache mid pid s m ids hm hc]
    by_cases hempty : filterOutId m.participants pid = []
    · rw [if_pos hempty]
      refine ⟨?_, ?_, ?_⟩
      · intro mid' m' hm'
        by_cases heq : mid' = mid
        · subst heq
          simp only [cleanup_meeting, lookupKey_eraseKey_self] at hm'
          exact Option.noConfusion hm'
        · simp only [cleanup_meeting] at hm'
          rw [lookupKey_eraseKey_ne _ _ _ heq,
            lookupKey_upsert_ne _ _ _ _ heq] at hm'
          obtain ⟨ids', hci, hiff', hnd1', hnd2'⟩ := hInv mid' m' hm'
          refine ⟨ids', ?_, hiff', hnd1', hnd2'⟩
          simp only [cleanup_meeting]
          rw [lookupKey_eraseKey_ne _ _ _ heq,
            lookupKey_upsert_ne _ _ _ _ heq]
          exact hci
      · intro mid' m' hm'
        by_cases heq : mid' = mid
        · subst heq
          simp only [cleanup_meeting, lookupKey_eraseKey_self] at hm'
          exact Option.noConfusion hm'
        · simp only [cleanup_meeting] at hm'
          rw [lookupKey_eraseKey_ne _ _ _ heq,
            lookupKey_upsert_ne _ _ _ _ heq] at hm'
          exact hNE mid' m' hm'
      · intro mid' hm'
        by_cases heq : mid' = mid
        · subst heq
          simp only [cleanup_meeting]
          exact lookupKey_eraseKey_self _ _
        · simp only [cleanup_meeting] at hm' ⊢
          rw [lookupKey_eraseKey_ne _ _ _ heq,
            lookupKey_upsert_ne _ _ _ _ heq] at hm'
          rw [lookupKey_eraseKey_ne _ _ _ heq,
            lookupKey_upsert_ne _ _ _ _ heq]
          exact hDom mid' hm'
    · rw [if_neg hempty]
      refine ⟨?_, ?_, ?_⟩
      · intro mid' m' hm'
        by_cases heq : mid' = mid
        · subst heq
          rw [lookupKey_upsert_self] at hm'
          cases hm'
          refine ⟨setDiscard ids pid, lookupKey_upsert_self _ _ _, ?_, ?_, ?_⟩
          · intro x
            rw [mem_setDiscard, map_id_filterOutId, mem_setDiscard, hiff x]
          · exact setDiscard_nodup _ _ hnd1
          · rw [map_id_filterOutId]
            exact setDiscard_nodup _ _ hnd2
        · rw [lookupKey_upsert_ne _ _ _ _ heq] at hm'
          obtain ⟨ids', hci, hiff', hnd1', hnd2'⟩ := hInv mid' m' hm'
          refine ⟨ids', ?_, hiff', hnd1', hnd2'⟩
          rw [lookupKey_upsert_ne _ _ _ _ heq]
          exact hci
      · intro mid' m' hm'
        by_cases heq : mid' = mid
        · subst heq
          rw [lookupKey_upsert_self] at hm'
          cases hm'
          exact hempty
        · rw [lookupKey_upsert_ne _ _ _ _ heq] at hm'
          exact hNE mid' m' hm'
      · intro mid' hm'
        by_cases heq : mid' = mid
        · subst heq
          rw [lookupKey_upsert_self] at hm'
          cases hm'
        · rw [lookupKey_upsert_ne _ _ _ _ heq] at hm'
          rw [lookupKey_upsert_ne _ _ _ _ heq]
          exact hDom mid' hm'

theorem strongInv_setRef (mid ref : String) (s : TeamsService)
    (h : StrongInv s) : StrongInv (add_conversation_reference mid ref s) :=
  h

theorem strongInv_applyOp (s : TeamsService) (op : Op)
    (h : StrongInv s) : StrongInv (applyOp s op) := by
  cases op with
  | join f now mid p => exact strongInv_join f now mid p s h
  | leave mid pid => exact strongInv_leave mid pid s h
  | cleanup mid => exact strongInv_cleanup mid s h
  | setRef mid r => exact strongInv_setRef mid r s h

theorem strongInv_foldl (ops : List Op) :
    ∀ s : TeamsService, StrongInv s → StrongInv (ops.foldl applyOp s) := by
  induction ops with
  | nil => exact fun s h => h
  | cons op rest ih =>
      intro s h
      exact ih (applyOp s op) (strongInv_applyOp s op h)

theorem reachable_strongInv (s : TeamsService) (h : Reachable s) :
    StrongInv s := by
  obtain ⟨ops, rfl⟩ := h
  exact strongInv_foldl ops initialState strongInv_initial

/-! Shared helper lemmas about `handle_meeting_leave`. -/

theorem leave_empties (mid pid : String) (s : TeamsService)
    (m : MeetingInfo) (hm : lookupKey s.active_meetings mid = some m)
    (hempty : filterOutId m.participants pid = []) :
    lookupKey (handle_meeting_leave mid pid s).active_meetings mid = none ∧
    lookupKey (handle_meeting_leave mid pid s).participant_cache mid = none ∧
    lookupKey (handle_meeting_leave mid pid s).conversation_references mid =
      none := by
  rcases hc : lookupKey s.participant_cache mid with _ | ids
  · rw [leave_known_nocache mid pid s m hm hc, if_pos hempty]
    refine ⟨?_, ?_, ?_⟩ <;>
      simp [cleanup_meeting, lookupKey_eraseKey_self]
  · rw [leave_known_cache mid pid s m ids hm hc, if_pos hempty]
    refine ⟨?_, ?_, ?_⟩ <;>
      simp [cleanup_meeting, lookupKey_eraseKey_self]

theorem leave_removes (mid pid : String) (s : TeamsService)
    (m : MeetingInfo) (hm : lookupKey s.active_meetings mid = some m) :
    pid ∉ cacheIds (handle_meeting_leave mid pid s) mid ∧
    pid ∉ (participantsOf (handle_meeting_leave mid pid s) mid).map
      (fun q => q.id) := by
  rcases hc : lookupKey s.participant_cache mid with _ | ids
  · rw [leave_known_nocache mid pid s m hm hc]
    by_cases hempty : filterOutId m.participants pid = []
    · rw [if_pos hempty]
      constructor
      · simp [cacheIds, cleanup_meeting, lookupKey_eraseKey_self]
      · simp [participantsOf, cleanup_meeting, lookupKey_eraseKey_self]
    · rw [if_neg hempty]
      constructor
      · simp [cacheIds, hc]
      · simp [participantsOf, lookupKey_upsert_self, map_id_filterOutId,
          mem_setDiscard]
  · rw [leave_known_cache mid pid s m ids hm hc]
    by_cases hempty : filterOutId m.participants pid = []
    · rw [if_pos hempty]
      constructor
      · simp [cacheIds, cleanup_meeting, lookupKey_eraseKey_self]
      · simp [participantsOf, cleanup_meeting, lookupKey_eraseKey_self]
    · rw [if_neg hempty]
      constructor
      · simp [cacheIds, lookupKey_upsert_self, mem_setDiscard]
      · simp [participantsOf, lookupKey_upsert_self, map_id_filterOutId,
          mem_setDiscard]

/-! The claims. -/

set_option maxRecDepth 4000 in
/-- Helper: on templates built from non-brace literals, brace escapes
and `\x7bname\x7d` fields, the format scanner succeeds and renders the
expected interpolation. -/
theorem fmtAux_pieces (value : String) (ps : List TemplatePiece)
    (h : piecesOk ps = true) :
    fmtAux value FmtState.normal (piecesSource ps) =
      Except.ok (renderPieces value ps) := by
  induction ps with
  | nil => rfl
  | cons piece rest ih =>
      rw [piecesOk, List.all_cons, Bool.and_eq_true] at h
      have ihr := ih h.2
      cases piece with
      | lit c =>
          have hc := h.1
          rw [pieceOk, Bool.not_eq_true', Bool.or_eq_false_iff] at hc
          have hc1 : ¬c = braceOpen := by
            intro hh
            rw [hh] at hc
            simp at hc
          have hc2 : ¬c = braceClose := by
            intro hh
            rw [hh] at hc
            simp at hc
          simp [piecesSource, renderPieces, fmtAux, Except.map, hc1, hc2,
            ihr]
      | escOpen =>
          simp [piecesSource, renderPieces, fmtAux, Except.map, ihr]
      | escClose =>
          have hbc : ¬braceClose = braceOpen := by decide
          simp [piecesSource, renderPieces, fmtAux, Except.map, hbc, ihr]
      | nameField =>
          have h1 : ¬('n' : Char) = braceOpen := by decide
          have h2 : ¬('n' : Char) = braceClose := by decide
          have h3 : ¬('a' : Char) = braceClose := by decide
          have h4 : ¬('m' : Char) = braceClose := by decide
          have h5 : ¬('e' : Char) = braceClose := by decide
          have h6 : (['n', 'a', 'm', 'e'] : List Char) = "name".data := by
            decide
          have hfr : fieldResult value ['n', 'a', 'm', 'e'] =
              Except.ok value := by
            rw [fieldResult, if_pos h6]
          simp [piecesSource, renderPieces, fmtAux, Except.map, h1, h2, h3,
            h4, h5, hfr, ihr]

/-- C8 (amended): greeting-text selection.  With a custom template
whose replacement fields are all exactly `\x7bname\x7d` (brace escapes
allowed), the participant name is interpolated, escapes rendering as
literal braces; templates with any other replacement field or an
unmatched brace make the `str.format` call raise
(IndexError / ValueError illustrated here at concrete inputs, KeyError
in the counterexample), so no greeting text is returned.  Without a
template, the canned phrase for the language comes from the fixed
four-entry table, any other language falling back to the pt-BR phrase,
and `selectText("Ana", "en-US", None)` deterministically yields the
English canned greeting containing "Ana" (determinism is inherent:
`generate_greeting_text` is a pure function). -/
theorem c8_greeting_text_selection :
    (∀ (name language : String) (ps : List TemplatePiece),
      piecesOk ps = true →
      generate_greeting_text
        { participant_name := name, language := language,
          custom_message := some (String.mk (piecesSource ps)) } =
        Except.ok (renderPieces name ps)) ∧
    (generate_greeting_text
        { participant_name := "Ana", language := "en-US",
          custom_message := some "\x7b\x7bname\x7d\x7d" } =
        Except.ok "\x7bname\x7d" ∧
      generate_greeting_text
        { participant_name := "Ana", language := "en-US",
          custom_message := some "\x7b\x7d" } =
        Except.error "IndexError: replacement index out of range" ∧
      generate_greeting_text
        { participant_name := "Ana", language := "en-US",
          custom_message := some "oops\x7d" } =
        Except.error
          "ValueError: single \x7d encountered in format string" ∧
      generate_greeting_text
        { participant_name := "Ana", language := "en-US",
          custom_message := some "oops\x7b" } =
        Except.error
          "ValueError: single \x7b encountered in format string") ∧
    (∀ name,
      generate_greeting_text
          { participant_name := name, language := "pt-BR" } =
        Except.ok ("Bom dia, " ++ name) ∧
      generate_greeting_text
          { participant_name := name, language := "en-US" } =
        Except.ok ("Good morning, " ++ name) ∧
      generate_greeting_text
          { participant_name := name, language := "es-ES" } =
        Except.ok ("Buenos dÃ­as, " ++ name) ∧
      generate_greeting_text
          { participant_name := name, language := "fr-FR" } =
        Except.ok ("Bonjour, " ++ name)) ∧
    (∀ name language,
      language ∉ ["pt-BR", "en-US", "es-ES", "fr-FR"] →
      generate_greeting_text
          { participant_name := name, language := language } =
        Except.ok ("Bom dia, " ++ name)) ∧
    (generate_greeting_text { participant_name := "Ana", language := "en-US" } =
        Except.ok "Good morning, Ana" ∧
      strContains "Good morning, Ana" "Ana" = true) := by
  refine ⟨?_, ⟨?_, ?_, ?_, ?_⟩, ?_, ?_, ?_, ?_⟩
  · intro name language ps h
    exact fmtAux_pieces name ps h
  · rfl
  · rfl
  · rfl
  · rfl
  · intro name
    refine ⟨?_, ?_, ?_, ?_⟩ <;>
      simp [generate_greeting_text, greetings_table, lookupKey]
  · intro name language h
    simp only [List.mem_cons, List.not_mem_nil, or_false, not_or] at h
    obtain ⟨h1, h2, h3, h4⟩ := h
    simp [generate_greeting_text, greetings_table, lookupKey,
      Ne.symm h1, Ne.symm h2, Ne.symm h3, Ne.symm h4]
  · rfl
  · decide

/-- C8 counterexample: the original claim — for every template the
selector returns the template with the name interpolated — is false of
the code: at the template "Oi \x7bother\x7d" the `str.format` call
raises KeyError, and no greeting text is returned. -/
theorem c8_counterexample :
    generate_greeting_text
        { participant_name := "Ana", language := "en-US",
          custom_message := some "Oi \x7bother\x7d" } =
      Except.error "KeyError: other" := by
  rfl

/-- C8 witness: the interpolation part applied at a concrete template
with a literal prefix and one name field, and the fallback part at a
concrete unrecognized language. -/
theorem c8_witness :
    piecesOk [TemplatePiece.lit 'O', TemplatePiece.lit 'i',
      TemplatePiece.lit ' ', TemplatePiece.nameField] = true ∧
    generate_greeting_text
        { participant_name := "Ana", language := "en-US",
          custom_message := some (String.mk (piecesSource
            [TemplatePiece.lit 'O', TemplatePiece.lit 'i',
             TemplatePiece.lit ' ', TemplatePiece.nameField])) } =
      Except.ok (renderPieces "Ana"
        [TemplatePiece.lit 'O', TemplatePiece.lit 'i',
         TemplatePiece.lit ' ', TemplatePiece.nameField]) ∧
    "xx-XX" ∉ ["pt-BR", "en-US", "es-ES", "fr-FR"] ∧
    generate_greeting_text
        { participant_name := "Ana", language := "xx-XX" } =
      Except.ok ("Bom dia, " ++ "Ana") :=
  ⟨by decide,
    c8_greeting_text_selection.1 "Ana" "en-US"
      [TemplatePiece.lit 'O', TemplatePiece.lit 'i',
       TemplatePiece.lit ' ', TemplatePiece.nameField] (by decide),
    by decide,
    c8_greeting_text_selection.2.2.2.1 "Ana" "xx-XX" (by decide)⟩

/-- C9: voice selection.  Each of the four supported languages maps to
a voice identifier, the four identifiers are pairwise distinct, and any
other language yields the pt-BR default voice. -/
theorem c9_voice_selection :
    (select_voice "pt-BR" = "alloy" ∧ select_voice "en-US" = "echo" ∧
      select_voice "es-ES" = "fable" ∧ select_voice "fr-FR" = "onyx") ∧
    [select_voice "pt-BR", select_voice "en-US", select_voice "es-ES",
      select_voice "fr-FR"].Nodup ∧
    (∀ language, language ∉ ["pt-BR", "en-US", "es-ES", "fr-FR"] →
      select_voice language = select_voice "pt-BR") := by
  refine ⟨by decide, by decide, ?_⟩
  intro language h
  simp only [List.mem_cons, List.not_mem_nil, or_false, not_or] at h
  obtain ⟨h1, h2, h3, h4⟩ := h
  simp [select_voice, voice_mapping, lookupKey,
    Ne.symm h1, Ne.symm h2, Ne.symm h3, Ne.symm h4]

/-- C9 witness: the theorem applied at a concrete unsupported
language. -/
theorem c9_witness :
    "de-DE" ∉ ["pt-BR", "en-US", "es-ES", "fr-FR"] ∧
    select_voice "de-DE" = select_voice "pt-BR" :=
  ⟨by decide, c9_voice_selection.2.2 "de-DE" (by decide)⟩

/-- C10: bot-name filter at the join boundary.  Any participant whose
lowercased display name contains "bot" is classified as a bot and the
per-participant join handling is a no-op for them (the tracker is never
called, no membership is added, no greeting dispatched); moreover
removing the bot-classified participants from a join event does not
change the resulting state at all. -/
theorem c10_bot_name_filter :
    (∀ p : ParticipantInfo,
      strContains (strToLower p.display_name) "bot" = true →
      is_bot_participant p = true ∧
      ∀ f now mid s, process_participant_join f now mid s p = s) ∧
    (∀ f now mid (ps : List ParticipantInfo) (s : TeamsService),
      on_teams_meeting_participants_join f now mid
          (ps.filter (fun r => !is_bot_participant r)) s =
        on_teams_meeting_participants_join f now mid ps s) := by
  constructor
  · intro p h
    have hb : is_bot_participant p = true := by
      simp [is_bot_participant, bot_identifiers, h]
    exact ⟨hb, fun f now mid s => by simp [process_participant_join, hb]⟩
  · intro f now mid ps
    induction ps with
    | nil => intro s; rfl
    | cons q rest ih =>
        intro s
        by_cases hb : is_bot_participant q = true
        · have hq : process_participant_join f now mid s q = s := by
            simp [process_participant_join, hb]
          have hfil : List.filter (fun r => !is_bot_participant r) (q :: rest) =
              List.filter (fun r => !is_bot_participant r) rest := by
            simp [List.filter_cons, hb]
          have hrhs : on_teams_meeting_participants_join f now mid (q :: rest) s =
              on_teams_meeting_participants_join f now mid rest s := by
            simp only [on_teams_meeting_participants_join, List.foldl_cons, hq]
          rw [hfil, hrhs]
          exact ih s
        · have hb' : is_bot_participant q = false := by
            revert hb
            cases is_bot_participant q <;> simp
          have hfil : List.filter (fun r => !is_bot_participant r) (q :: rest) =
              q :: List.filter (fun r => !is_bot_participant r) rest := by
            simp [List.filter_cons, hb']
          rw [hfil]
          simp only [on_teams_meeting_participants_join, List.foldl_cons]
          exact ih (process_participant_join f now mid s q)

/-- C10 witness: the theorem applied to a concrete human participant
whose display name merely contains "bot". -/
theorem c10_witness :
    strContains
        (strToLower
          (ParticipantInfo.display_name
            { id := "u7", display_name := "Abbott" })) "bot" = true ∧
    (is_bot_participant { id := "u7", display_name := "Abbott" } = true ∧
      ∀ f now mid s,
        process_participant_join f now mid s
          { id := "u7", display_name := "Abbott" } = s) :=
  ⟨by decide,
    c10_bot_name_filter.1 { id := "u7", display_name := "Abbott" } (by decide)⟩

/-- C2: in every state reachable from the initial empty state by
join/leave/cleanup/set-conversation-reference operations, every meeting
in the active-meetings map has a membership-index entry holding exactly
the ids of its participant list, and that list has no duplicate ids. -/
theorem c2_index_list_consistency (s : TeamsService) (h : Reachable s) :
    Inv s :=
  (reachable_strongInv s h).1

/-- C2 witness: the theorem applied at a concrete reachable state. -/
theorem c2_witness :
    Reachable (run [Op.join false 0 "m1" { id := "p1", display_name := "Ana" },
      Op.leave "m1" "zz"]) ∧
    Inv (run [Op.join false 0 "m1" { id := "p1", display_name := "Ana" },
      Op.leave "m1" "zz"]) :=
  ⟨⟨[Op.join false 0 "m1" { id := "p1", display_name := "Ana" },
      Op.leave "m1" "zz"], rfl⟩,
    c2_index_list_consistency _
      ⟨[Op.join false 0 "m1" { id := "p1", display_name := "Ana" },
        Op.leave "m1" "zz"], rfl⟩⟩

/-- C1: join idempotence.  From a reachable state in which `p.id` is
not yet a member of meeting `mid`, a second `handle_meeting_join` with
the same participant id changes no state and dispatches no greeting:
the participant list holds exactly one entry with `p.id`, the index
holds `p.id` exactly once, and the dispatcher runs exactly once across
both calls. -/
theorem c1_join_idempotent (s : TeamsService) (f₁ f₂ : Bool)
    (now₁ now₂ : Nat) (mid : String) (p : ParticipantInfo)
    (hr : Reachable s) (hnew : p.id ∉ cacheIds s mid) :
    handle_meeting_join f₂ now₂ mid p (handle_meeting_join f₁ now₁ mid p s) =
      handle_meeting_join f₁ now₁ mid p s ∧
    (cacheIds (handle_meeting_join f₂ now₂ mid p
      (handle_meeting_join f₁ now₁ mid p s)) mid).count p.id = 1 ∧
    ((participantsOf (handle_meeting_join f₂ now₂ mid p
      (handle_meeting_join f₁ now₁ mid p s)) mid).map
        (fun q => q.id)).count p.id = 1 ∧
    (handle_meeting_join f₂ now₂ mid p
      (handle_meeting_join f₁ now₁ mid p s)).dispatch_log =
      s.dispatch_log ++ [(mid, p.id)] := by
  obtain ⟨hInv, hNE, hDom⟩ := reachable_strongInv s hr
  rcases hm : lookupKey s.active_meetings mid with _ | m
  · rw [join_fresh f₁ now₁ mid p s hm]
    rw [join_noop f₂ now₂ mid p _ _ [p.id] (lookupKey_upsert_self _ _ _)
      (lookupKey_upsert_self _ _ _) (List.mem_singleton.mpr rfl)]
    refine ⟨rfl, ?_, ?_, rfl⟩
    · simp [cacheIds, lookupKey_upsert_self]
    · simp [participantsOf, lookupKey_upsert_self]
  · obtain ⟨ids, hc, hiff, hnd1, hnd2⟩ := hInv mid m hm
    have hnp : p.id ∉ ids := by
      simpa [cacheIds, hc] using hnew
    have hpid : p.id ∉ m.participants.map (fun q => q.id) :=
      fun hmem => hnp ((hiff p.id).mpr hmem)
    rw [join_new f₁ now₁ mid p s m ids hm hc hnp]
    rw [join_noop f₂ now₂ mid p _ _ (ids ++ [p.id])
      (lookupKey_upsert_self _ _ _) (lookupKey_upsert_self _ _ _)
      (List.mem_append.mpr (Or.inr (List.mem_singleton.mpr rfl)))]
    refine ⟨rfl, ?_, ?_, rfl⟩
    · simp [cacheIds, lookupKey_upsert_self, List.count_append,
        List.count_eq_zero.mpr hnp]
    · simp [participantsOf, lookupKey_upsert_self, List.count_append,
        List.count_eq_zero.mpr hpid]

/-- C1 witness: the theorem applied at the initial state. -/
theorem c1_witness :
    Reachable initialState ∧
    ParticipantInfo.id { id := "p1", display_name := "Ana" } ∉
      cacheIds initialState "m1" ∧
    (handle_meeting_join true 7 "m1" { id := "p1", display_name := "Ana" }
        (handle_meeting_join false 3 "m1"
          { id := "p1", display_name := "Ana" } initialState) =
      handle_meeting_join false 3 "m1"
        { id := "p1", display_name := "Ana" } initialState ∧
      (cacheIds (handle_meeting_join true 7 "m1"
        { id := "p1", display_name := "Ana" }
        (handle_meeting_join false 3 "m1"
          { id := "p1", display_name := "Ana" } initialState)) "m1").count
        (ParticipantInfo.id { id := "p1", display_name := "Ana" }) = 1 ∧
      ((participantsOf (handle_meeting_join true 7 "m1"
        { id := "p1", display_name := "Ana" }
        (handle_meeting_join false 3 "m1"
          { id := "p1", display_name := "Ana" } initialState)) "m1").map
          (fun q => q.id)).count
        (ParticipantInfo.id { id := "p1", display_name := "Ana" }) = 1 ∧
      (handle_meeting_join true 7 "m1" { id := "p1", display_name := "Ana" }
        (handle_meeting_join false 3 "m1"
          { id := "p1", display_name := "Ana" } initialState)).dispatch_log =
        initialState.dispatch_log ++
          [("m1", ParticipantInfo.id { id := "p1", display_name := "Ana" })]) :=
  ⟨⟨[], rfl⟩, by decide,
    c1_join_idempotent initialState false true 3 7 "m1"
      { id := "p1", display_name := "Ana" } ⟨[], rfl⟩ (by decide)⟩

/-- C3: join/leave symmetry and cleanup.  A join followed by a leave
for the same participant id leaves that id absent from both the
participant list and the index; and whenever a leave empties a known
meeting's participant list, the meeting disappears from the meetings
map, the index, and the conversation references. -/
theorem c3_join_leave_symmetry :
    (∀ (f : Bool) (now : Nat) (mid : String) (p : ParticipantInfo)
        (s : TeamsService),
      p.id ∉ cacheIds
        (handle_meeting_leave mid p.id
          (handle_meeting_join f now mid p s)) mid ∧
      p.id ∉ (participantsOf
        (handle_meeting_leave mid p.id
          (handle_meeting_join f now mid p s)) mid).map (fun q => q.id)) ∧
    (∀ (mid pid : String) (s : TeamsService) (m : MeetingInfo),
      lookupKey s.active_meetings mid = some m →
      filterOutId m.participants pid = [] →
      lookupKey (handle_meeting_leave mid pid s).active_meetings mid =
        none ∧
      lookupKey (handle_meeting_leave mid pid s).participant_cache mid =
        none ∧
      lookupKey
        (handle_meeting_leave mid pid s).conversation_references mid =
        none) := by
  constructor
  · intro f now mid p s
    obtain ⟨m', hm'⟩ := join_meeting_present f now mid p s
    exact leave_removes mid p.id _ m' hm'
  · intro mid pid s m hm hempty
    exact leave_empties mid pid s m hm hempty

/-- C3 witness: the second part of the theorem applied at the state
obtained by joining a single participant. -/
theorem c3_witness :
    lookupKey (handle_meeting_join false 0 "m1"
        { id := "p1", display_name := "Ana" }
        initialState).active_meetings "m1" =
      some { meeting_id := "m1", organizer_id := "unknown",
             participants := [{ id := "p1", display_name := "Ana" }],
             started_at := some 0 } ∧
    filterOutId [{ id := "p1", display_name := "Ana" }] "p1" = [] ∧
    (lookupKey (handle_meeting_leave "m1" "p1"
        (handle_meeting_join false 0 "m1"
          { id := "p1", display_name := "Ana" }
          initialState)).active_meetings "m1" = none ∧
      lookupKey (handle_meeting_leave "m1" "p1"
        (handle_meeting_join false 0 "m1"
          { id := "p1", display_name := "Ana" }
          initialState)).participant_cache "m1" = none ∧
      lookupKey (handle_meeting_leave "m1" "p1"
        (handle_meeting_join false 0 "m1"
          { id := "p1", display_name := "Ana" }
          initialState)).conversation_references "m1" = none) :=
  ⟨by decide, by decide,
    c3_join_leave_symmetry.2 "m1" "p1"
      (handle_meeting_join false 0 "m1"
        { id := "p1", display_name := "Ana" } initialState)
      { meeting_id := "m1", organizer_id := "unknown",
        participants := [{ id := "p1", display_name := "Ana" }],
        started_at := some 0 }
      (by decide) (by decide)⟩

/-- C4: greeting-failure isolation.  No failure escapes the greeting
dispatcher; the call wrapper of `handle_meeting_join` never re-raises;
the resulting state does not depend on whether the greeting step
failed; and even with a failing greeting (`ttsFails = true`) the
membership update is applied: from a reachable state where the
participant is new, the id is in the index and the participant in the
list afterwards. -/
theorem c4_greeting_failure_isolation :
    (∀ (f : Bool) (s : TeamsService) (mid : String) (p : ParticipantInfo),
      generate_and_play_greeting f s mid p = Except.ok ()) ∧
    (∀ (f : Bool) (now : Nat) (mid : String) (p : ParticipantInfo)
        (s : TeamsService),
      (handle_meeting_join_call f now mid p s).2 = none) ∧
    (∀ (f₁ f₂ : Bool) (now : Nat) (mid : String) (p : ParticipantInfo)
        (s : TeamsService),
      handle_meeting_join f₁ now mid p s =
        handle_meeting_join f₂ now mid p s) ∧
    (∀ (s : TeamsService) (now : Nat) (mid : String)
        (p : ParticipantInfo), Reachable s →
      p.id ∉ cacheIds s mid →
      p.id ∈ cacheIds (handle_meeting_join true now mid p s) mid ∧
      p.id ∈ (participantsOf
        (handle_meeting_join true now mid p s) mid).map (fun q => q.id)) := by
  refine ⟨greeting_ok, fun _ _ _ _ _ => rfl, ?_, ?_⟩
  · intro f₁ f₂ now mid p s
    rcases hm : lookupKey s.active_meetings mid with _ | m
    · rw [join_fresh f₁ now mid p s hm, join_fresh f₂ now mid p s hm]
    · rcases hc : lookupKey s.participant_cache mid with _ | ids
      · rw [join_stale f₁ now mid p s m hm hc,
          join_stale f₂ now mid p s m hm hc]
      · by_cases hdup : p.id ∈ ids
        · rw [join_noop f₁ now mid p s m ids hm hc hdup,
            join_noop f₂ now mid p s m ids hm hc hdup]
        · rw [join_new f₁ now mid p s m ids hm hc hdup,
            join_new f₂ now mid p s m ids hm hc hdup]
  · intro s now mid p hr hnew
    obtain ⟨hInv, hNE, hDom⟩ := reachable_strongInv s hr
    rcases hm : lookupKey s.active_meetings mid with _ | m
    · rw [join_fresh true now mid p s hm]
      constructor
      · simp [cacheIds, lookupKey_upsert_self]
      · simp [participantsOf, lookupKey_upsert_self]
    · obtain ⟨ids, hc, hiff, _, _⟩ := hInv mid m hm
      have hnp : p.id ∉ ids := by
        simpa [cacheIds, hc] using hnew
      rw [join_new true now mid p s m ids hm hc hnp]
      constructor
      · simp [cacheIds, lookupKey_upsert_self]
      · simp [participantsOf, lookupKey_upsert_self]

/-- C4 witness: the last part of the theorem applied at the initial
state with a failing greeting. -/
theorem c4_witness :
    Reachable initialState ∧
    ParticipantInfo.id { id := "p1", display_name := "Ana" } ∉
      cacheIds initialState "m1" ∧
    (ParticipantInfo.id { id := "p1", display_name := "Ana" } ∈
      cacheIds (handle_meeting_join true 0 "m1"
        { id := "p1", display_name := "Ana" } initialState) "m1" ∧
      ParticipantInfo.id { id := "p1", display_name := "Ana" } ∈
        (participantsOf (handle_meeting_join true 0 "m1"
          { id := "p1", display_name := "Ana" } initialState) "m1").map
          (fun q => q.id)) :=
  ⟨⟨[], rfl⟩, by decide,
    c4_greeting_failure_isolation.2.2.2 initialState 0 "m1"
      { id := "p1", display_name := "Ana" } ⟨[], rfl⟩ (by decide)⟩

/-- C5: meeting lifecycle and fresh recreation.  After the last
remaining participant leaves, the meeting is gone; a subsequent join
recreates the meeting lazily: started_at is the timestamp of that join
(not the destroyed meeting's), the organizer is "unknown", and the
index entry — created empty — holds exactly the new participant's id
after the join completes. -/
theorem c5_meeting_lifecycle (s : TeamsService) (mid : String)
    (m : MeetingInfo) (pid : String)
    (hm : lookupKey s.active_meetings mid = some m)
    (hempty : filterOutId m.participants pid = []) :
    get_meeting_info (handle_meeting_leave mid pid s) mid = none ∧
    ∀ (f : Bool) (now₂ : Nat) (p₂ : ParticipantInfo),
      get_meeting_info
        (handle_meeting_join f now₂ mid p₂
          (handle_meeting_leave mid pid s)) mid =
        some { meeting_id := mid, organizer_id := "unknown",
               subject := none, participants := [p₂],
               started_at := some now₂ } ∧
      lookupKey (handle_meeting_join f now₂ mid p₂
        (handle_meeting_leave mid pid s)).participant_cache mid =
        some [p₂.id] := by
  obtain ⟨h1, h2, h3⟩ := leave_empties mid pid s m hm hempty
  refine ⟨h1, ?_⟩
  intro f now₂ p₂
  rw [join_fresh f now₂ mid p₂ _ h1]
  constructor
  · simp [get_meeting_info, lookupKey_upsert_self]
  · simp [lookupKey_upsert_self]

/-- C5 witness: the theorem applied at the state obtained by joining a
single participant, then leaving them. -/
theorem c5_witness :
    lookupKey (handle_meeting_join false 0 "m1"
        { id := "p1", display_name := "Ana" }
        initialState).active_meetings "m1" =
      some { meeting_id := "m1", organizer_id := "unknown",
             participants := [{ id := "p1", display_name := "Ana" }],
             started_at := some 0 } ∧
    filterOutId [{ id := "p1", display_name := "Ana" }] "p1" = [] ∧
    (get_meeting_info (handle_meeting_leave "m1" "p1"
        (handle_meeting_join false 0 "m1"
          { id := "p1", display_name := "Ana" } initialState)) "m1" =
      none ∧
      ∀ (f : Bool) (now₂ : Nat) (p₂ : ParticipantInfo),
        get_meeting_info
          (handle_meeting_join f now₂ "m1" p₂
            (handle_meeting_leave "m1" "p1"
              (handle_meeting_join false 0 "m1"
                { id := "p1", display_name := "Ana" } initialState))) "m1" =
          some { meeting_id := "m1", organizer_id := "unknown",
                 subject := none, participants := [p₂],
                 started_at := some now₂ } ∧
        lookupKey (handle_meeting_join f now₂ "m1" p₂
          (handle_meeting_leave "m1" "p1"
            (handle_meeting_join false 0 "m1"
              { id := "p1", display_name := "Ana" }
              initialState))).participant_cache "m1" = some [p₂.id]) :=
  ⟨by decide, by decide,
    c5_meeting_lifecycle
      (handle_meeting_join false 0 "m1"
        { id := "p1", display_name := "Ana" } initialState)
      "m1"
      { meeting_id := "m1", organizer_id := "unknown",
        participants := [{ id := "p1", display_name := "Ana" }],
        started_at := some 0 }
      "p1" (by decide) (by decide)⟩

/-- C6: multi-participant scenario.  From the empty tracker, join p1,
join p2, leave p1: meeting "m1" is still active with exactly p2 in its
participant list, and its index holds exactly p2's id. -/
theorem c6_multi_participant_scenario :
    get_meeting_info
        (handle_meeting_leave "m1" "p1"
          (handle_meeting_join false 1 "m1"
            { id := "p2", display_name := "Bruno" }
            (handle_meeting_join false 0 "m1"
              { id := "p1", display_name := "Ana" } initialState))) "m1" =
      some { meeting_id := "m1", organizer_id := "unknown",
             participants := [{ id := "p2", display_name := "Bruno" }],
             started_at := some 0 } ∧
    lookupKey (handle_meeting_leave "m1" "p1"
        (handle_meeting_join false 1 "m1"
          { id := "p2", display_name := "Bruno" }
          (handle_meeting_join false 0 "m1"
            { id := "p1", display_name := "Ana" }
            initialState))).participant_cache "m1" = some ["p2"] := by
  constructor <;> decide

/-- C7: leave tolerance.  A leave for an unknown meeting changes
nothing at all; and on a reachable state, a leave for a known meeting
with a participant id not present in it leaves the meeting record and
its index entry unchanged and does not destroy the meeting. -/
theorem c7_leave_tolerance :
    (∀ (s : TeamsService) (mid pid : String),
      lookupKey s.active_meetings mid = none →
      handle_meeting_leave mid pid s = s) ∧
    (∀ (s : TeamsService) (mid pid : String) (m : MeetingInfo),
      Reachable s →
      lookupKey s.active_meetings mid = some m →
      pid ∉ m.participants.map (fun q => q.id) →
      lookupKey (handle_meeting_leave mid pid s).active_meetings mid =
        some m ∧
      lookupKey (handle_meeting_leave mid pid s).participant_cache mid =
        lookupKey s.participant_cache mid) := by
  constructor
  · intro s mid pid hm
    exact leave_unknown mid pid s hm
  · intro s mid pid m hr hm hpid
    obtain ⟨hInv, hNE, hDom⟩ := reachable_strongInv s hr
    obtain ⟨ids, hc, hiff, _, _⟩ := hInv mid m hm
    have hprts : filterOutId m.participants pid = m.participants :=
      filterOutId_eq_self _ _ hpid
    have hne2 : filterOutId m.participants pid ≠ [] := by
      rw [hprts]
      exact hNE mid m hm
    have hid : setDiscard ids pid = ids :=
      setDiscard_eq_self _ _ (fun hmem => hpid ((hiff pid).mp hmem))
    rw [leave_known_cache mid pid s m ids hm hc, if_neg hne2]
    constructor
    · rw [show lookupKey (upsert s.active_meetings mid
        { m with participants := filterOutId m.participants pid }) mid =
          some { m with participants := filterOutId m.participants pid }
        from lookupKey_upsert_self _ _ _, hprts]
    · rw [show (upsert s.participant_cache mid (setDiscard ids pid)) =
        upsert s.participant_cache mid ids from by rw [hid],
        upsert_eq_self s.participant_cache mid ids hc]

/-- C7 witness: the second part of the theorem applied at a reachable
one-participant state with an absent participant id. -/
theorem c7_witness :
    Reachable (run [Op.join false 0 "m1"
      { id := "p1", display_name := "Ana" }]) ∧
    lookupKey (run [Op.join false 0 "m1"
        { id := "p1", display_name := "Ana" }]).active_meetings "m1" =
      some { meeting_id := "m1", organizer_id := "unknown",
             participants := [{ id := "p1", display_name := "Ana" }],
             started_at := some 0 } ∧
    "zz" ∉ [({ id := "p1", display_name := "Ana" } :
      ParticipantInfo)].map (fun q => q.id) ∧
    (lookupKey (handle_meeting_leave "m1" "zz"
        (run [Op.join false 0 "m1"
          { id := "p1", display_name := "Ana" }])).active_meetings "m1" =
      some { meeting_id := "m1", organizer_id := "unknown",
             participants := [{ id := "p1", display_name := "Ana" }],
             started_at := some 0 } ∧
      lookupKey (handle_meeting_leave "m1" "zz"
        (run [Op.join false 0 "m1"
          { id := "p1", display_name := "Ana" }])).participant_cache "m1" =
        lookupKey (run [Op.join false 0 "m1"
          { id := "p1", display_name := "Ana" }]).participant_cache "m1") :=
  ⟨⟨[Op.join false 0 "m1" { id := "p1", display_name := "Ana" }], rfl⟩,
    by decide, by decide,
    c7_leave_tolerance.2 _ "m1" "zz"
      { meeting_id := "m1", organizer_id := "unknown",
        participants := [{ id := "p1", display_name := "Ana" }],
        started_at := some 0 }
      ⟨[Op.join false 0 "m1" { id := "p1", display_name := "Ana" }], rfl⟩
      (by decide) (by decide)⟩

end TeamsGreetingBot
